import Mathlib

/-!
Verification development for the opencode-chat-bridge repository.

The TypeScript sources are shallowly embedded as Lean definitions:

* `src/utils/messageFormatter.ts` — `formatPart`, `formatParts`, `formatDelta`,
  `chunkMessage` and their helpers (JS strings are modelled as `String`; for
  `chunkMessage`, which indexes into the string, as `List Char`).
* `src/adapters/TelegramAdapter.ts` — the authorization middleware of
  `setupHandlers`, `handleCallback` and `handleMessage` (the externally
  observable calls each handler makes are reified as action traces).
* `src/opencode/types.ts` — the SDK `Part` union, as an inductive type.
* The Session / SessionManager layer is not among the available sources; the
  definitions for it are modelled from the specification and marked as such.
-/

set_option maxHeartbeats 1000000

namespace OpencodeBridge

/-- JavaScript truthiness of an optional string: `false` for `undefined`
and for the empty string. -/
def jsTruthy : Option String → Bool
  | none => false
  | some s => s != ""

/-- JavaScript `a || b` for an optional string `a`: yields `b` when `a` is
`undefined` or empty. -/
def jsOrStr (a : Option String) (b : String) : String :=
  match a with
  | none => b
  | some s => if s = "" then b else s

/-- `FormatOptions` from messageFormatter.ts: every field is optional. -/
structure FormatOptions where
  includeTools : Option Bool
  includeFiles : Option Bool
  includeReasoning : Option Bool
  includeSteps : Option Bool
  useMarkdown : Option Bool
  compact : Option Bool
deriving DecidableEq

/-- `Required<FormatOptions>`: the result of merging with the defaults. -/
structure ResolvedFormatOptions where
  includeTools : Bool
  includeFiles : Bool
  includeReasoning : Bool
  includeSteps : Bool
  useMarkdown : Bool
  compact : Bool
deriving DecidableEq

/-- `DEFAULT_OPTIONS` from messageFormatter.ts. -/
def DEFAULT_OPTIONS : ResolvedFormatOptions :=
  { includeTools := true
    includeFiles := true
    includeReasoning := false
    includeSteps := true
    useMarkdown := true
    compact := false }

/-- The spread merge `{ ...DEFAULT_OPTIONS, ...options }` at the top of
`formatPart`. -/
def resolveOptions (o : FormatOptions) : ResolvedFormatOptions :=
  { includeTools := o.includeTools.getD DEFAULT_OPTIONS.includeTools
    includeFiles := o.includeFiles.getD DEFAULT_OPTIONS.includeFiles
    includeReasoning := o.includeReasoning.getD DEFAULT_OPTIONS.includeReasoning
    includeSteps := o.includeSteps.getD DEFAULT_OPTIONS.includeSteps
    useMarkdown := o.useMarkdown.getD DEFAULT_OPTIONS.useMarkdown
    compact := o.compact.getD DEFAULT_OPTIONS.compact }

/-- The fields of a tool invocation's `input` record that
`getToolResultSummary` reads. -/
structure ToolInput where
  filePath : Option String
  command : Option String
  pattern : Option String
deriving DecidableEq

/-- The SDK `ToolState` union (`pending` / `running` / `completed` / `error`),
keeping the fields the formatter reads: the `title` of running and completed
states, the `error` message of error states, and the `input` record. -/
inductive ToolState where
  | pending (input : Option ToolInput)
  | running (title : Option String) (input : Option ToolInput)
  | completed (title : Option String) (input : Option ToolInput)
  | error (err : Option String) (input : Option ToolInput)
deriving DecidableEq

/-- The `state.input` access in `getToolResultSummary`. -/
def ToolState.input : ToolState → Option ToolInput
  | .pending i => i
  | .running _ i => i
  | .completed _ i => i
  | .error _ i => i

/-- The SDK `Part` union re-exported by src/opencode/types.ts.  Besides the
six kinds the formatter names, the union also contains `SnapshotPart`,
`PatchPart`, `AgentPart`, `RetryPart` and `CompactionPart`; only the fields
the formatter reads are kept. -/
inductive Part where
  | text (text : Option String)
  | tool (tool : String) (state : ToolState)
  | file (filename : Option String)
  | reasoning (text : Option String)
  | stepStart
  | stepFinish
  | snapshot
  | patch
  | agent
  | retry
  | compaction
deriving DecidableEq

/-- The `type` discriminator string of each `Part` variant. -/
def partType : Part → String
  | .text _ => "text"
  | .tool _ _ => "tool"
  | .file _ => "file"
  | .reasoning _ => "reasoning"
  | .stepStart => "step-start"
  | .stepFinish => "step-finish"
  | .snapshot => "snapshot"
  | .patch => "patch"
  | .agent => "agent"
  | .retry => "retry"
  | .compaction => "compaction"

/-- The six `case` labels of the `switch` in `formatPart`. -/
def handledPartTypes : List String :=
  ["text", "tool", "file", "reasoning", "step-start", "step-finish"]

/-- `truncate` from messageFormatter.ts.  (All call sites use
`maxLength ≥ 50`, so the `maxLength - 3` is an ordinary subtraction.) -/
def truncate (text : String) (maxLength : Nat) : String :=
  if text.length ≤ maxLength then text
  else text.take (maxLength - 3) ++ "..."

/-- `formatToolName` from messageFormatter.ts. -/
def formatToolName (tool : String) : String :=
  if tool = "read" then "Reading file"
  else if tool = "write" then "Writing file"
  else if tool = "edit" then "Editing file"
  else if tool = "bash" then "Running command"
  else if tool = "glob" then "Finding files"
  else if tool = "grep" then "Searching code"
  else if tool = "list" then "Listing files"
  else if tool = "webfetch" then "Fetching web page"
  else if tool = "todoread" then "Reading tasks"
  else if tool = "todowrite" then "Writing tasks"
  else tool

/-- `getToolResultSummary` from messageFormatter.ts. -/
def getToolResultSummary (tool : String) (state : ToolState) : Option String :=
  match state.input with
  | none => none
  | some input =>
    if tool = "read" then
      if jsTruthy input.filePath then some ("Read: `" ++ jsOrStr input.filePath "" ++ "`")
      else none
    else if tool = "write" then
      if jsTruthy input.filePath then some ("Wrote: `" ++ jsOrStr input.filePath "" ++ "`")
      else none
    else if tool = "edit" then
      if jsTruthy input.filePath then some ("Edited: `" ++ jsOrStr input.filePath "" ++ "`")
      else none
    else if tool = "bash" then
      if jsTruthy input.command then some ("`" ++ truncate (jsOrStr input.command "") 50 ++ "`")
      else none
    else if tool = "glob" then
      if jsTruthy input.pattern then some ("Pattern: `" ++ jsOrStr input.pattern "" ++ "`")
      else none
    else if tool = "grep" then
      if jsTruthy input.pattern then some ("Search: `" ++ jsOrStr input.pattern "" ++ "`")
      else none
    else
      match state with
      | .completed title _ => if jsTruthy title then some (jsOrStr title "") else none
      | _ => none

/-- `getStatusEmoji` inside `formatToolPart`.  In this copy of the source all
four branches return the empty string. -/
def getStatusEmoji : ToolState → String
  | .pending _ => ""
  | .running _ _ => ""
  | .completed _ _ => ""
  | .error _ _ => ""

/-- `formatToolPart` from messageFormatter.ts. -/
def formatToolPart (tool : String) (state : ToolState) (opts : ResolvedFormatOptions) : String :=
  let statusEmoji := getStatusEmoji state
  let toolName := formatToolName tool
  if opts.compact then
    match state with
    | .completed _ _ => statusEmoji ++ " " ++ toolName
    | .error err _ => statusEmoji ++ " " ++ toolName ++ ": " ++ jsOrStr err "Error"
    | .running _ _ => statusEmoji ++ " " ++ toolName ++ "..."
    | .pending _ => statusEmoji ++ " " ++ toolName
  else
    let lines : List String :=
      match state with
      | .running title _ =>
        [statusEmoji ++ " *" ++ toolName ++ "*..."]
          ++ (if jsTruthy title then [jsOrStr title ""] else [])
      | .completed _ _ =>
        [statusEmoji ++ " *" ++ toolName ++ "*"]
          ++ (if jsTruthy (getToolResultSummary tool state)
              then [jsOrStr (getToolResultSummary tool state) ""] else [])
      | .error err _ =>
        [statusEmoji ++ " *" ++ toolName ++ "* failed"]
          ++ (if jsTruthy err then ["Error: " ++ jsOrStr err ""] else [])
      | .pending _ =>
        [statusEmoji ++ " *" ++ toolName ++ "* pending..."]
    String.intercalate "\n" lines

/-- `formatTextPart` from messageFormatter.ts: `part.text || ''`. -/
def formatTextPart (text : Option String) : String :=
  jsOrStr text ""

/-- `formatFilePart` from messageFormatter.ts. -/
def formatFilePart (filename : Option String) (opts : ResolvedFormatOptions) : String :=
  let fn := jsOrStr filename "unknown file"
  if opts.compact then " `" ++ fn ++ "`"
  else " *File:* `" ++ fn ++ "`"

/-- `formatReasoningPart` from messageFormatter.ts. -/
def formatReasoningPart (text : Option String) (opts : ResolvedFormatOptions) : String :=
  let t := jsOrStr text ""
  if opts.compact || t = "" then " _Thinking..._"
  else " _Thinking:_ " ++ truncate t 200

/-- `formatStepStartPart` from messageFormatter.ts. -/
def formatStepStartPart : String := " Starting step..."

/-- `formatStepFinishPart` from messageFormatter.ts. -/
def formatStepFinishPart : String := ""

/-- `formatPart` from messageFormatter.ts: the `switch (part.type)` with a
silent `default: return null`. -/
def formatPart (part : Part) (options : FormatOptions) : Option String :=
  let opts := resolveOptions options
  match part with
  | .text t => some (formatTextPart t)
  | .tool tool state =>
    if !opts.includeTools then none else some (formatToolPart tool state opts)
  | .file fn =>
    if !opts.includeFiles then none else some (formatFilePart fn opts)
  | .reasoning t =>
    if !opts.includeReasoning then none else some (formatReasoningPart t opts)
  | .stepStart =>
    if !opts.includeSteps then none else some formatStepStartPart
  | .stepFinish =>
    if !opts.includeSteps then none else some formatStepFinishPart
  | _ => none

/-- `formatParts` from messageFormatter.ts: map `formatPart`, keep the
non-null non-empty results, join with newlines. -/
def formatParts (parts : List Part) (options : FormatOptions) : String :=
  let formatted :=
    ((parts.map (fun part => formatPart part options)).filterMap id).filter
      (fun text => text.length > 0)
  String.intercalate "\n" formatted

/-- `formatDelta` from messageFormatter.ts: `if (!delta) return null`, then
text parts return the delta, all other parts return null. -/
def formatDelta (part : Part) (delta : Option String) : Option String :=
  if !jsTruthy delta then none
  else if partType part = "text" then delta
  else none

/-! ### chunkMessage (JS strings modelled as `List Char`) -/

/-- The whitespace characters stripped by JavaScript `String.prototype.trim`
(the ASCII ones; the full JS set also has exotic Unicode space characters,
which none of the claims involve). -/
def jsWhitespace (c : Char) : Bool :=
  c = ' ' || c = '\t' || c = '\n' || c = '\r' || c = '\x0b' || c = '\x0c'

/-- Strip trailing whitespace. -/
def trimRight (l : List Char) : List Char :=
  (l.reverse.dropWhile jsWhitespace).reverse

/-- JavaScript `trim()`: strip whitespace from both ends. -/
def jsTrim (l : List Char) : List Char :=
  (trimRight l).dropWhile jsWhitespace

/-- Whether the pattern occurs in `l` starting exactly at index `i`. -/
def matchesAt (pat l : List Char) (i : Nat) : Bool :=
  (l.drop i).take pat.length == pat

/-- JavaScript `l.lastIndexOf(pat, pos)`: the largest start index `≤ pos` of
an occurrence of `pat` in `l`, `none` (JS: `-1`) when there is none. -/
def lastIndexOfFrom (pat l : List Char) : Nat → Option Nat
  | 0 => if matchesAt pat l 0 then some 0 else none
  | n + 1 => if matchesAt pat l (n + 1) then some (n + 1) else lastIndexOfFrom pat l n

/-- The space fallback of the break-point search in `chunkMessage`
(`remaining.lastIndexOf(' ', maxLength)`). -/
def spaceBreak (remaining : List Char) (maxLength : Nat) : Nat :=
  match lastIndexOfFrom [' '] remaining maxLength with
  | some lastSpace => if 2 * lastSpace > maxLength then lastSpace + 1 else maxLength
  | none => maxLength

/-- The sentence-end fallback of the break-point search in `chunkMessage`
(`remaining.lastIndexOf('. ', maxLength)`).  The JS guard
`lastPeriod > maxLength * 0.5` is `2 * lastPeriod > maxLength` on integers. -/
def periodBreak (remaining : List Char) (maxLength : Nat) : Nat :=
  match lastIndexOfFrom ['.', ' '] remaining maxLength with
  | some lastPeriod =>
    if 2 * lastPeriod > maxLength then lastPeriod + 2
    else spaceBreak remaining maxLength
  | none => spaceBreak remaining maxLength

/-- The break-point search of one `chunkMessage` loop iteration: newline,
then sentence end, then space, then the hard cut at `maxLength`. -/
def breakPointFor (remaining : List Char) (maxLength : Nat) : Nat :=
  match lastIndexOfFrom ['\n'] remaining maxLength with
  | some lastNewline =>
    if 2 * lastNewline > maxLength then lastNewline + 1
    else periodBreak remaining maxLength
  | none => periodBreak remaining maxLength

/-- The `while (remaining.length > 0)` loop of `chunkMessage`, with explicit
fuel; `none` means the fuel was exhausted before the loop finished. -/
def chunkLoop (maxLength : Nat) : Nat → List Char → Option (List (List Char))
  | _, [] => some []
  | 0, _ :: _ => none
  | fuel + 1, remaining =>
    if remaining.length ≤ maxLength then some [remaining]
    else
      let bp := breakPointFor remaining maxLength
      match chunkLoop maxLength fuel (jsTrim (remaining.drop bp)) with
      | some rest => some (jsTrim (remaining.take bp) :: rest)
      | none => none

/-- `chunkMessage` from messageFormatter.ts.  The loop is run with
`text.length` fuel; the termination claim is exactly that this fuel
suffices. -/
def chunkMessage (text : List Char) (maxLength : Nat) : Option (List (List Char)) :=
  if text.length ≤ maxLength then some [text]
  else chunkLoop maxLength text.length text

/-! ### TelegramAdapter.ts -/

/-- The outcome of the authorization middleware installed by
`setupHandlers`: the update is dropped (no user id), rejected with the
unauthorized notice, or passed on to `next()`. -/
inductive AuthOutcome where
  | noUser
  | unauthorizedNotice
  | passed
deriving DecidableEq

/-- The authorization middleware of `setupHandlers` in TelegramAdapter.ts:
drop updates without a user id; when the allowed-users list is non-empty and
does not contain the sender, reply with the unauthorized notice and stop;
otherwise call `next()`. -/
def authMiddleware (allowedUsers : List Nat) (fromId : Option Nat) : AuthOutcome :=
  match fromId with
  | none => AuthOutcome.noUser
  | some userId =>
    if allowedUsers.length > 0 ∧ userId ∉ allowedUsers then AuthOutcome.unauthorizedNotice
    else AuthOutcome.passed

/-- What one incoming update produces at the middleware boundary: whether the
unauthorized notice was sent, and whether the command/message handlers run
(`next()` was called).  The handlers are the only code that creates,
restores or mutates Sessions. -/
structure UpdateOutcome where
  unauthorizedNoticeSent : Bool
  handlersRan : Bool
deriving DecidableEq

/-- Routing of one update through the middleware of `setupHandlers`. -/
def dispatchUpdate (allowedUsers : List Nat) (fromId : Option Nat) : UpdateOutcome :=
  match authMiddleware allowedUsers fromId with
  | AuthOutcome.noUser => ⟨false, false⟩
  | AuthOutcome.unauthorizedNotice => ⟨true, false⟩
  | AuthOutcome.passed => ⟨false, true⟩

/-- The permission decisions of `respondToPermission`:
`once`, `always`, `reject`. -/
inductive PermDecision where
  | once
  | always
  | reject
deriving DecidableEq

/-- The externally observable calls `handleCallback` can make. -/
inductive CbAction where
  | answerCb
  | switchProjectCall (name : String)
  | replyPermission (d : PermDecision)
  | sendConfirmation (b : Bool)
  | replyText (t : String)
deriving DecidableEq

/-- JavaScript `s.startsWith(pat)`. -/
def strStartsWith (s pat : String) : Bool :=
  pat.data.isPrefixOf s.data

/-- `handleCallback` from TelegramAdapter.ts, as the trace of calls it makes
for a callback query carrying `data`; `sessionPresent` is whether
`sessionManager.get(chatId)` returned a session. -/
def handleCallback (data : String) (sessionPresent : Bool) : List CbAction :=
  CbAction.answerCb ::
  (if strStartsWith data "switch:" then
    [CbAction.switchProjectCall (data.drop 7)]
  else if data = "permission:once" then
    if sessionPresent then
      [CbAction.replyPermission PermDecision.once, CbAction.replyText "✅ Allowed once"]
    else []
  else if data = "permission:always" then
    if sessionPresent then
      [CbAction.replyPermission PermDecision.always, CbAction.replyText "✅ Always allowed"]
    else []
  else if data = "permission:reject" then
    if sessionPresent then
      [CbAction.replyPermission PermDecision.reject, CbAction.replyText "❌ Rejected"]
    else []
  else if data = "confirm:yes" then
    if sessionPresent then [CbAction.sendConfirmation true] else []
  else if data = "confirm:no" then
    if sessionPresent then [CbAction.sendConfirmation false] else []
  else [])

/-- The decisions a callback trace forwards through
`replyToLatestPermission`. -/
def permissionReplies (acts : List CbAction) : List PermDecision :=
  acts.filterMap (fun a =>
    match a with
    | CbAction.replyPermission d => some d
    | _ => none)

/-- The slice of Session state `handleMessage` consults:
`session.isRunning()`. -/
structure MSession where
  running : Bool
deriving DecidableEq

/-- The externally observable calls `handleMessage` can make. -/
inductive MsgAction where
  | restoreCall
  | getOrCreateCall
  | setupOutputCall
  | replyText (t : String)
  | startCall
  | sendMessageCall (text : String)
deriving DecidableEq

/-- The session-resolution prelude of `handleMessage`: `sessionManager.get`,
then `sessionManager.restore` when absent, then `sessionManager.getOrCreate`
when still absent; returns the calls made and the session used. -/
def resolveSession (get? restore? : Option MSession) (created : MSession) :
    List MsgAction × MSession :=
  match get? with
  | some s => ([], s)
  | none =>
    match restore? with
    | some s => ([MsgAction.restoreCall, MsgAction.setupOutputCall], s)
    | none =>
      ([MsgAction.restoreCall, MsgAction.getOrCreateCall, MsgAction.setupOutputCall], created)

/-- `handleMessage` from TelegramAdapter.ts, as the trace of calls it makes:
resolve the session, start it when it is not running (forwarding nothing if
the start fails), then forward the message text via `session.sendMessage`.
`get?` and `restore?` are the results of the manager lookups and `startOk`
whether `session.start()` succeeds. -/
def handleMessage (text : String) (get? restore? : Option MSession) (created : MSession)
    (startOk : Bool) : List MsgAction :=
  let pre := resolveSession get? restore? created
  if pre.2.running then
    pre.1 ++ [MsgAction.sendMessageCall text]
  else if startOk then
    pre.1 ++ [MsgAction.replyText "🚀 Starting OpenCode session...", MsgAction.startCall,
              MsgAction.replyText "✅ OpenCode session ready!", MsgAction.sendMessageCall text]
  else
    pre.1 ++ [MsgAction.replyText "🚀 Starting OpenCode session...", MsgAction.startCall,
              MsgAction.replyText "❌ Failed to start OpenCode. Is it installed?"]

/-- Strict ordering of two calls in a trace: `a` occurs at a position
strictly before an occurrence of `b`. -/
def actionBefore (a b : MsgAction) (tr : List MsgAction) : Prop :=
  ∃ i j, i < j ∧ tr.get? i = some a ∧ tr.get? j = some b

/-! ### Session event loop and sendMessage

The Session / SessionManager sources are not available; the definitions
below are modelled from the specification (§4.3). -/

/-- Modelled from the spec: the Session status values of §3
(Session.ts is not among the available sources). -/
inductive AgentStatus where
  | uninitialized
  | starting
  | idle
  | busy
  | error
  | terminated
deriving DecidableEq

/-- Modelled from the spec: the payload of a `statusChanged` stream event
(busy / idle / error with a carried message). -/
inductive StreamStatus where
  | busy
  | idle
  | error (msg : String)
deriving DecidableEq

/-- Modelled from the spec: a pending permission request (id, prompt). -/
structure PermissionReq where
  id : String
  title : String
deriving DecidableEq

/-- Modelled from the spec: the typed content fragment carried by a
`partUpdated` event (text/tool/file/reasoning/step-boundary). -/
inductive StreamPart where
  | text (fragment : String)
  | tool
  | file
  | reasoning
  | stepStart
  | stepFinish
deriving DecidableEq

/-- Modelled from the spec: the event kinds of the Agent Client stream that
the Session's event consumption loop folds over (§4.2, §4.3). -/
inductive AgentEvent where
  | partUpdated (part : StreamPart)
  | statusChanged (status : StreamStatus)
  | permissionRequested (p : PermissionReq)
deriving DecidableEq

/-- Modelled from the spec: the Session fields of §3 that the event loop and
`sendMessage` touch (Session.ts is not among the available sources). -/
structure SessionModel where
  status : AgentStatus
  outputBuffer : String
  subEvents : List StreamPart
  pendingPermission : Option PermissionReq
  agentSessionId : Option String
  lastActivityAt : Nat
deriving DecidableEq

/-- Modelled from the spec: the notification kinds a Session emits to its
owner (§6). -/
inductive SessionNotice where
  | output (text : String)
  | permission (p : PermissionReq)
  | errorNotice (msg : String)
  | terminated
deriving DecidableEq

/-- Modelled from the spec: one step of the Session's event consumption loop
(§4.3): text parts concatenate into `outputBuffer`; tool/file/reasoning parts
are recorded as structured sub-events; a step-finish or an idle status
transition while busy flushes the buffer as one `output` notification;
status errors emit an `error` notification; permission requests are stored
and surfaced. -/
def handleEvent (s : SessionModel) (e : AgentEvent) : SessionModel × List SessionNotice :=
  match e with
  | AgentEvent.partUpdated (StreamPart.text frag) =>
    ({ s with outputBuffer := s.outputBuffer ++ frag }, [])
  | AgentEvent.partUpdated StreamPart.stepFinish =>
    if s.outputBuffer = "" then (s, [])
    else ({ s with outputBuffer := "" }, [SessionNotice.output s.outputBuffer])
  | AgentEvent.partUpdated p =>
    ({ s with subEvents := s.subEvents ++ [p] }, [])
  | AgentEvent.statusChanged StreamStatus.idle =>
    if s.status = AgentStatus.busy then
      ({ s with status := AgentStatus.idle, outputBuffer := "" },
       [SessionNotice.output s.outputBuffer])
    else ({ s with status := AgentStatus.idle }, [])
  | AgentEvent.statusChanged StreamStatus.busy =>
    ({ s with status := AgentStatus.busy }, [])
  | AgentEvent.statusChanged (StreamStatus.error m) =>
    ({ s with status := AgentStatus.error }, [SessionNotice.errorNotice m])
  | AgentEvent.permissionRequested p =>
    ({ s with pendingPermission := some p }, [SessionNotice.permission p])

/-- Modelled from the spec: folding a finite prefix of the event stream
through the Session, collecting the emitted notifications in order. -/
def processEvents (s : SessionModel) (events : List AgentEvent) :
    SessionModel × List SessionNotice :=
  events.foldl (fun acc e =>
    let r := handleEvent acc.1 e
    (r.1, acc.2 ++ r.2)) (s, [])

/-- Modelled from the spec: the error taxonomy of §7 for Session
operations. -/
inductive OpError where
  | busyErr
  | notRunningErr
  | noPendingPermissionErr
  | startupErr
deriving DecidableEq

/-- Modelled from the spec: the Agent Client calls a Session operation can
issue (§4.2). -/
inductive AgentCall where
  | sendMessage (agentSessionId : Option String) (text : String)
  | interruptCall (agentSessionId : Option String)
  | respondToPermission (agentSessionId : Option String) (permissionId : String)
      (decision : PermDecision)
deriving DecidableEq

/-- Modelled from the spec: `Session.sendMessage` (§4.3): valid from `idle`
(transition to `busy`, update `lastActivityAt`, forward to the Agent Client);
rejected with `Busy` from `busy`; rejected with `NotRunningError` from any
other state.  Returns the updated session, the rejection if any, and the
Agent Client calls made. -/
def sendMessageOp (now : Nat) (s : SessionModel) (text : String) :
    SessionModel × Option OpError × List AgentCall :=
  match s.status with
  | AgentStatus.idle =>
    ({ s with status := AgentStatus.busy, lastActivityAt := now }, none,
     [AgentCall.sendMessage s.agentSessionId text])
  | AgentStatus.busy => (s, some OpError.busyErr, [])
  | _ => (s, some OpError.notRunningErr, [])

/-! ### Helper lemmas -/

theorem string_empty_append (s : String) : "" ++ s = s := by
  cases s
  rfl

theorem string_append_assoc (a b c : String) : a ++ b ++ c = a ++ (b ++ c) := by
  cases a with
  | mk da =>
    cases b with
    | mk db =>
      cases c with
      | mk dc =>
        show String.mk (da ++ db ++ dc) = String.mk (da ++ (db ++ dc))
        rw [List.append_assoc]

/-! ### Claim theorems -/

/-- Claim C1: for a busy Session at the start of a turn (empty output
buffer), delivering three `partUpdated` text fragments followed by
`statusChanged(idle)` emits exactly one `output` notification whose text is
the concatenation of the three fragments in arrival order. -/
theorem claim_c1_output_concat (s : SessionModel) (t1 t2 t3 : String)
    (hb : s.status = AgentStatus.busy) (he : s.outputBuffer = "") :
    (processEvents s
      [AgentEvent.partUpdated (StreamPart.text t1),
       AgentEvent.partUpdated (StreamPart.text t2),
       AgentEvent.partUpdated (StreamPart.text t3),
       AgentEvent.statusChanged StreamStatus.idle]).2
      = [SessionNotice.output (t1 ++ t2 ++ t3)] := by
  obtain ⟨st, buf, se, pp, asid, la⟩ := s
  have hst : st = AgentStatus.busy := hb
  have hbuf : buf = "" := he
  subst hst
  subst hbuf
  show [SessionNotice.output ("" ++ t1 ++ t2 ++ t3)] = [SessionNotice.output (t1 ++ t2 ++ t3)]
  rw [string_empty_append]

/-- Witness for C1 at a concrete busy session and fragments. -/
theorem claim_c1_output_concat_witness :
    (⟨AgentStatus.busy, "", [], none, none, 0⟩ : SessionModel).status = AgentStatus.busy
    ∧ (⟨AgentStatus.busy, "", [], none, none, 0⟩ : SessionModel).outputBuffer = ""
    ∧ (processEvents (⟨AgentStatus.busy, "", [], none, none, 0⟩ : SessionModel)
        [AgentEvent.partUpdated (StreamPart.text "Hi"),
         AgentEvent.partUpdated (StreamPart.text " th"),
         AgentEvent.partUpdated (StreamPart.text "ere"),
         AgentEvent.statusChanged StreamStatus.idle]).2
        = [SessionNotice.output ("Hi" ++ " th" ++ "ere")] :=
  ⟨rfl, rfl, claim_c1_output_concat _ "Hi" " th" "ere" rfl rfl⟩

/-- Claim C2: `sendMessage` on a busy Session is rejected with the `Busy`
condition, leaves the Session unchanged, and issues no Agent Client call. -/
theorem claim_c2_busy_reject (now : Nat) (s : SessionModel) (text : String)
    (hb : s.status = AgentStatus.busy) :
    sendMessageOp now s text = (s, some OpError.busyErr, []) := by
  unfold sendMessageOp
  rw [hb]

/-- Witness for C2 at a concrete busy session. -/
theorem claim_c2_busy_reject_witness :
    (⟨AgentStatus.busy, "buf", [], none, some "sid", 3⟩ : SessionModel).status
      = AgentStatus.busy
    ∧ sendMessageOp 9 (⟨AgentStatus.busy, "buf", [], none, some "sid", 3⟩ : SessionModel) "hello"
      = ((⟨AgentStatus.busy, "buf", [], none, some "sid", 3⟩ : SessionModel),
         some OpError.busyErr, []) :=
  ⟨rfl, claim_c2_busy_reject 9 _ "hello" rfl⟩

/-- Claim C6: `formatPart` and `formatParts` are pure and deterministic —
equal arguments give equal results, and `formatParts` is determined entirely
by the pointwise `formatPart` values of its argument list (it reads no other
state). -/
theorem claim_c6_format_pure (p : Part) (o : FormatOptions) (ps : List Part) :
    (∀ p' o', p = p' → o = o' → formatPart p o = formatPart p' o')
    ∧ (∀ ps' o', ps = ps' → o = o' → formatParts ps o = formatParts ps' o')
    ∧ (∀ ps' : List Part,
        (ps.map fun q => formatPart q o) = (ps'.map fun q => formatPart q o) →
        formatParts ps o = formatParts ps' o) := by
  refine ⟨?_, ?_, ?_⟩
  · intro p' o' hp ho
    subst hp
    subst ho
    rfl
  · intro ps' o' hps ho
    subst hps
    subst ho
    rfl
  · intro ps' hmap
    simp only [formatParts, hmap]

/-- Witness for C6: concrete instantiations, including two distinct part
lists with equal pointwise `formatPart` images. -/
theorem claim_c6_format_pure_witness :
    formatPart Part.stepStart ⟨none, none, none, none, none, none⟩
      = formatPart Part.stepStart ⟨none, none, none, none, none, none⟩
    ∧ formatParts [Part.reasoning (some "a")] ⟨none, none, none, none, none, none⟩
      = formatParts [Part.snapshot] ⟨none, none, none, none, none, none⟩ :=
  ⟨(claim_c6_format_pure Part.stepStart ⟨none, none, none, none, none, none⟩ []).1
      Part.stepStart ⟨none, none, none, none, none, none⟩ rfl rfl,
   (claim_c6_format_pure Part.stepStart ⟨none, none, none, none, none, none⟩
      [Part.reasoning (some "a")]).2.2 [Part.snapshot] (by decide)⟩

/-- Claim C7: `formatDelta` returns the delta exactly when the part is a
text part and the delta is present and non-empty; every other part kind or
absent/empty delta yields `null`. -/
theorem claim_c7_delta (p : Part) (d : Option String) :
    formatDelta p d =
      if partType p = "text" ∧ d ≠ none ∧ d ≠ some "" then d else none := by
  rcases d with _ | s
  · simp [formatDelta, jsTruthy]
  · by_cases hs : s = ""
    · subst hs
      simp [formatDelta, jsTruthy]
    · by_cases hp : partType p = "text"
      · simp [formatDelta, jsTruthy, hs, hp]
      · simp [formatDelta, jsTruthy, hs, hp]

/-- Claim C9: with a non-empty allowed-users list, an update from a user not
in the list sends the unauthorized notice and runs no handler (so no Session
is created, restored or mutated); with an empty list every sender passes
through to the handlers. -/
theorem claim_c9_authorization (allowed : List Nat) (uid : Nat) :
    (allowed ≠ [] → uid ∉ allowed → dispatchUpdate allowed (some uid) = ⟨true, false⟩)
    ∧ (allowed = [] → dispatchUpdate allowed (some uid) = ⟨false, true⟩) := by
  constructor
  · intro h1 h2
    have hl : allowed.length > 0 := List.length_pos.mpr h1
    simp [dispatchUpdate, authMiddleware, hl, h2]
  · rintro rfl
    simp [dispatchUpdate, authMiddleware]

/-- Witness for C9 at a concrete allowed list and sender. -/
theorem claim_c9_authorization_witness :
    ([5] ≠ ([] : List Nat))
    ∧ (7 ∉ [5])
    ∧ dispatchUpdate [5] (some 7) = ⟨true, false⟩
    ∧ dispatchUpdate [] (some 7) = ⟨false, true⟩ :=
  ⟨by decide, by decide,
   (claim_c9_authorization [5] 7).1 (by decide) (by decide),
   (claim_c9_authorization [] 7).2 rfl⟩

/-- Claim C3, counterexample: the claim says no part kind outside
{text, tool, file, reasoning, step-start, step-finish} reaches the silent
default branch, but the SDK `Part` union also contains the snapshot kind,
and `formatPart` maps it to `null` through `default: return null` even with
every include option enabled. -/
theorem claim_c3_counterexample :
    partType Part.snapshot ∉ handledPartTypes
    ∧ formatPart Part.snapshot ⟨some true, some true, some true, some true, some true, some false⟩
      = none :=
  ⟨by decide, rfl⟩

/-- Claim C3, amended: `formatPart` dispatches each of the six handled kinds
to that kind's formatter (subject to its include-option gate), but the
handling is not exhaustive over `Part`: every part kind outside the six
(snapshot, patch, agent, retry, compaction) falls to the silent default
branch and yields `null` for all options. -/
theorem claim_c3_amended (o : FormatOptions) :
    (∀ t, formatPart (Part.text t) o = some (formatTextPart t))
    ∧ (∀ tool st, formatPart (Part.tool tool st) o =
        if (resolveOptions o).includeTools then some (formatToolPart tool st (resolveOptions o))
        else none)
    ∧ (∀ fn, formatPart (Part.file fn) o =
        if (resolveOptions o).includeFiles then some (formatFilePart fn (resolveOptions o))
        else none)
    ∧ (∀ t, formatPart (Part.reasoning t) o =
        if (resolveOptions o).includeReasoning
        then some (formatReasoningPart t (resolveOptions o)) else none)
    ∧ (formatPart Part.stepStart o =
        if (resolveOptions o).includeSteps then some formatStepStartPart else none)
    ∧ (formatPart Part.stepFinish o =
        if (resolveOptions o).includeSteps then some formatStepFinishPart else none)
    ∧ (∀ p, partType p ∉ handledPartTypes → formatPart p o = none) := by
  refine ⟨?_, ?_, ?_, ?_, ?_, ?_, ?_⟩
  · intro t
    rfl
  · intro tool st
    cases h : (resolveOptions o).includeTools <;> simp [formatPart, h]
  · intro fn
    cases h : (resolveOptions o).includeFiles <;> simp [formatPart, h]
  · intro t
    cases h : (resolveOptions o).includeReasoning <;> simp [formatPart, h]
  · cases h : (resolveOptions o).includeSteps <;> simp [formatPart, h]
  · cases h : (resolveOptions o).includeSteps <;> simp [formatPart, h]
  · intro p hp
    cases p <;> first
      | rfl
      | (exfalso; exact hp (by simp [partType, handledPartTypes]))

/-- Witness for the amended C3 at concrete parts and options. -/
theorem claim_c3_amended_witness :
    formatPart (Part.text (some "hi")) ⟨none, none, none, none, none, none⟩
      = some (formatTextPart (some "hi"))
    ∧ partType Part.patch ∉ handledPartTypes
    ∧ formatPart Part.patch ⟨none, none, none, none, none, none⟩ = none :=
  ⟨(claim_c3_amended ⟨none, none, none, none, none, none⟩).1 (some "hi"),
   by decide,
   (claim_c3_amended ⟨none, none, none, none, none, none⟩).2.2.2.2.2.2 Part.patch (by decide)⟩

/-- Claim C4: each permission button forwards exactly the decision it names
through `replyToLatestPermission` (`permission:once` forwards `once`,
`permission:always` forwards `always`, `permission:reject` forwards
`reject`), any other callback data — and any callback without a live
session — forwards no decision, and every forwarded decision lies in
{once, always, reject}. -/
theorem claim_c4_permission_buttons (data : String) (present : Bool) :
    (data = "permission:once" →
      permissionReplies (handleCallback data true) = [PermDecision.once])
    ∧ (data = "permission:always" →
      permissionReplies (handleCallback data true) = [PermDecision.always])
    ∧ (data = "permission:reject" →
      permissionReplies (handleCallback data true) = [PermDecision.reject])
    ∧ (data ≠ "permission:once" → data ≠ "permission:always" → data ≠ "permission:reject" →
      permissionReplies (handleCallback data present) = [])
    ∧ permissionReplies (handleCallback data false) = []
    ∧ (∀ d ∈ permissionReplies (handleCallback data present),
        d = PermDecision.once ∨ d = PermDecision.always ∨ d = PermDecision.reject) := by
  refine ⟨?_, ?_, ?_, ?_, ?_, ?_⟩
  · rintro rfl
    decide
  · rintro rfl
    decide
  · rintro rfl
    decide
  · intro h1 h2 h3
    simp only [handleCallback]
    split_ifs <;> simp [permissionReplies]
  · simp only [handleCallback]
    split_ifs <;> simp_all [permissionReplies]
  · intro d _
    cases d
    · exact Or.inl rfl
    · exact Or.inr (Or.inl rfl)
    · exact Or.inr (Or.inr rfl)

/-- Witness for C4 at the three button payloads and an unrelated payload. -/
theorem claim_c4_permission_buttons_witness :
    permissionReplies (handleCallback "permission:once" true) = [PermDecision.once]
    ∧ permissionReplies (handleCallback "permission:always" true) = [PermDecision.always]
    ∧ permissionReplies (handleCallback "permission:reject" true) = [PermDecision.reject]
    ∧ permissionReplies (handleCallback "switch:foo" true) = [] :=
  ⟨(claim_c4_permission_buttons "permission:once" true).1 rfl,
   (claim_c4_permission_buttons "permission:always" true).2.1 rfl,
   (claim_c4_permission_buttons "permission:reject" true).2.2.1 rfl,
   (claim_c4_permission_buttons "switch:foo" true).2.2.2.1 (by decide) (by decide) (by decide)⟩

/-- Claim C5: when no live Session exists for the conversation
(`sessionManager.get` returns absent), `handleMessage` calls `restore`
first; it calls `getOrCreate` exactly when `restore` returned absent; and
whenever it forwards the text via `sendMessage`, the session either was
already running or a successful `start` call happened earlier in the
trace. -/
theorem claim_c5_restore_then_create (text : String) (restore? : Option MSession)
    (created : MSession) (startOk : Bool) :
    (handleMessage text none restore? created startOk).head? = some MsgAction.restoreCall
    ∧ (MsgAction.getOrCreateCall ∈ handleMessage text none restore? created startOk
        ↔ restore? = none)
    ∧ (MsgAction.sendMessageCall text ∈ handleMessage text none restore? created startOk →
        (restore?.getD created).running = true
        ∨ (startOk = true
            ∧ actionBefore MsgAction.startCall (MsgAction.sendMessageCall text)
                (handleMessage text none restore? created startOk))) := by
  obtain ⟨cr⟩ := created
  rcases restore? with _ | ⟨⟨rr⟩⟩
  · cases cr
    · cases startOk
      · exact ⟨rfl, by simp [handleMessage, resolveSession],
          fun h => absurd h (by simp [handleMessage, resolveSession])⟩
      · exact ⟨rfl, by simp [handleMessage, resolveSession],
          fun _ => Or.inr ⟨rfl, 4, 6, by omega, rfl, rfl⟩⟩
    · exact ⟨rfl, by simp [handleMessage, resolveSession], fun _ => Or.inl rfl⟩
  · cases rr
    · cases startOk
      · exact ⟨rfl, by simp [handleMessage, resolveSession],
          fun h => absurd h (by simp [handleMessage, resolveSession])⟩
      · exact ⟨rfl, by simp [handleMessage, resolveSession],
          fun _ => Or.inr ⟨rfl, 3, 5, by omega, rfl, rfl⟩⟩
    · exact ⟨rfl, by simp [handleMessage, resolveSession], fun _ => Or.inl rfl⟩

/-- Witness for C5: a fresh conversation whose restore misses, with a
successful start. -/
theorem claim_c5_restore_then_create_witness :
    (handleMessage "hello" none none ⟨false⟩ true).head? = some MsgAction.restoreCall
    ∧ (MsgAction.sendMessageCall "hello" ∈ handleMessage "hello" none none ⟨false⟩ true)
    ∧ (((none : Option MSession).getD ⟨false⟩).running = true
        ∨ (true = true
            ∧ actionBefore MsgAction.startCall (MsgAction.sendMessageCall "hello")
                (handleMessage "hello" none none ⟨false⟩ true))) :=
  ⟨(claim_c5_restore_then_create "hello" none ⟨false⟩ true).1,
   by decide,
   (claim_c5_restore_then_create "hello" none ⟨false⟩ true).2.2 (by decide)⟩

theorem length_dropWhile_le (p : Char → Bool) (l : List Char) :
    (l.dropWhile p).length ≤ l.length := by
  induction l with
  | nil => simp
  | cons a t ih =>
    rw [List.dropWhile_cons]
    by_cases h : p a
    · simp only [h, if_true]
      rw [List.length_cons]
      omega
    · simp [h]

theorem trimRight_length_le (l : List Char) : (trimRight l).length ≤ l.length := by
  unfold trimRight
  rw [List.length_reverse]
  have := length_dropWhile_le jsWhitespace l.reverse
  simpa using this

theorem jsTrim_length_le (l : List Char) : (jsTrim l).length ≤ l.length :=
  le_trans (length_dropWhile_le _ _) (trimRight_length_le l)

theorem lastIndexOfFrom_le (pat l : List Char) :
    ∀ pos i, lastIndexOfFrom pat l pos = some i → i ≤ pos := by
  intro pos
  induction pos with
  | zero =>
    intro i h
    unfold lastIndexOfFrom at h
    by_cases hc : matchesAt pat l 0 = true
    · rw [if_pos hc] at h
      injection h with h'
      omega
    · rw [if_neg hc] at h
      exact absurd h (by simp)
  | succ n ih =>
    intro i h
    unfold lastIndexOfFrom at h
    by_cases hc : matchesAt pat l (n + 1) = true
    · rw [if_pos hc] at h
      injection h with h'
      omega
    · rw [if_neg hc] at h
      exact le_trans (ih i h) (by omega)

theorem lastIndexOfFrom_matches (pat l : List Char) :
    ∀ pos i, lastIndexOfFrom pat l pos = some i → matchesAt pat l i = true := by
  intro pos
  induction pos with
  | zero =>
    intro i h
    unfold lastIndexOfFrom at h
    by_cases hc : matchesAt pat l 0 = true
    · rw [if_pos hc] at h
      injection h with h'
      rw [← h']
      exact hc
    · rw [if_neg hc] at h
      exact absurd h (by simp)
  | succ n ih =>
    intro i h
    unfold lastIndexOfFrom at h
    by_cases hc : matchesAt pat l (n + 1) = true
    · rw [if_pos hc] at h
      injection h with h'
      rw [← h']
      exact hc
    · rw [if_neg hc] at h
      exact ih i h

theorem matchesAt_period (l : List Char) (i : Nat)
    (h : matchesAt ['.', ' '] l i = true) :
    i + 2 ≤ l.length ∧ l.take (i + 2) = l.take i ++ ['.', ' '] := by
  unfold matchesAt at h
  have h' : (l.drop i).take 2 = ['.', ' '] := beq_iff_eq.mp h
  have h1 : i + 2 ≤ l.length := by
    have := congrArg List.length h'
    simp [List.length_take] at this
    omega
  refine ⟨h1, ?_⟩
  rw [List.take_add, h']

theorem trimRight_append_period (A : List Char) :
    trimRight (A ++ ['.', ' ']) = A ++ ['.'] := by
  unfold trimRight
  rw [List.reverse_append]
  have hrev : (['.', ' '] : List Char).reverse = [' ', '.'] := rfl
  rw [hrev]
  rw [List.cons_append, List.cons_append, List.nil_append]
  rw [List.dropWhile_cons, if_pos (by decide : jsWhitespace ' ' = true)]
  rw [List.dropWhile_cons, if_neg (by decide : ¬jsWhitespace '.' = true)]
  rw [List.reverse_cons, List.reverse_reverse]

theorem periodChunk_length (l : List Char) (i : Nat)
    (h : matchesAt ['.', ' '] l i = true) :
    (jsTrim (l.take (i + 2))).length ≤ i + 1 := by
  obtain ⟨hlen, htake⟩ := matchesAt_period l i h
  have hA : (l.take i).length = i := by
    rw [List.length_take]
    omega
  have h1 : (trimRight (l.take (i + 2))).length = i + 1 := by
    rw [htake, trimRight_append_period]
    simp [hA]
  have h2 := length_dropWhile_le jsWhitespace (trimRight (l.take (i + 2)))
  unfold jsTrim
  omega

theorem spaceBreak_pos (remaining : List Char) (maxLength : Nat) (h : 1 ≤ maxLength) :
    1 ≤ spaceBreak remaining maxLength := by
  unfold spaceBreak
  split
  · split <;> omega
  · omega

theorem periodBreak_pos (remaining : List Char) (maxLength : Nat) (h : 1 ≤ maxLength) :
    1 ≤ periodBreak remaining maxLength := by
  unfold periodBreak
  split
  · split
    · omega
    · exact spaceBreak_pos remaining maxLength h
  · exact spaceBreak_pos remaining maxLength h

theorem breakPointFor_pos (remaining : List Char) (maxLength : Nat) (h : 1 ≤ maxLength) :
    1 ≤ breakPointFor remaining maxLength := by
  unfold breakPointFor
  split
  · split
    · omega
    · exact periodBreak_pos remaining maxLength h
  · exact periodBreak_pos remaining maxLength h

theorem spaceBreak_chunk_le (remaining : List Char) (maxLength : Nat) :
    (jsTrim (remaining.take (spaceBreak remaining maxLength))).length ≤ maxLength + 1 := by
  have hb : spaceBreak remaining maxLength ≤ maxLength + 1 := by
    unfold spaceBreak
    split
    · next ls heq =>
      have := lastIndexOfFrom_le [' '] remaining maxLength ls heq
      split <;> omega
    · omega
  have hj := jsTrim_length_le (remaining.take (spaceBreak remaining maxLength))
  have ht : (remaining.take (spaceBreak remaining maxLength)).length
      ≤ spaceBreak remaining maxLength := by
    rw [List.length_take]
    omega
  omega

theorem periodBreak_chunk_le (remaining : List Char) (maxLength : Nat) :
    (jsTrim (remaining.take (periodBreak remaining maxLength))).length ≤ maxLength + 1 := by
  unfold periodBreak
  split
  · next lp heq =>
    split
    · have hm := lastIndexOfFrom_matches ['.', ' '] remaining maxLength lp heq
      have hle := lastIndexOfFrom_le ['.', ' '] remaining maxLength lp heq
      have := periodChunk_length remaining lp hm
      omega
    · exact spaceBreak_chunk_le remaining maxLength
  · exact spaceBreak_chunk_le remaining maxLength

theorem breakPoint_chunk_le (remaining : List Char) (maxLength : Nat) :
    (jsTrim (remaining.take (breakPointFor remaining maxLength))).length ≤ maxLength + 1 := by
  unfold breakPointFor
  split
  · next ln heq =>
    split
    · have hle := lastIndexOfFrom_le ['\n'] remaining maxLength ln heq
      have hj := jsTrim_length_le (remaining.take (ln + 1))
      have ht : (remaining.take (ln + 1)).length ≤ ln + 1 := by
        rw [List.length_take]
        omega
      omega
    · exact periodBreak_chunk_le remaining maxLength
  · exact periodBreak_chunk_le remaining maxLength

theorem chunkLoop_chunks_le (maxLength : Nat) :
    ∀ fuel remaining chunks, chunkLoop maxLength fuel remaining = some chunks →
      ∀ c ∈ chunks, c.length ≤ maxLength + 1 := by
  intro fuel
  induction fuel with
  | zero =>
    intro remaining chunks hc c hm
    cases remaining with
    | nil =>
      simp only [chunkLoop] at hc
      injection hc with hc'
      rw [← hc'] at hm
      simp at hm
    | cons a t => simp [chunkLoop] at hc
  | succ n ih =>
    intro remaining chunks hc c hm
    cases remaining with
    | nil =>
      simp only [chunkLoop] at hc
      injection hc with hc'
      rw [← hc'] at hm
      simp at hm
    | cons a t =>
      simp only [chunkLoop] at hc
      by_cases hlen : (a :: t).length ≤ maxLength
      · rw [if_pos hlen] at hc
        injection hc with hc'
        rw [← hc'] at hm
        rw [List.mem_singleton.mp hm]
        omega
      · rw [if_neg hlen] at hc
        cases hrec : chunkLoop maxLength n
            (jsTrim ((a :: t).drop (breakPointFor (a :: t) maxLength))) with
        | none =>
          rw [hrec] at hc
          exact absurd hc (by simp)
        | some rest =>
          rw [hrec] at hc
          injection hc with hc'
          rw [← hc'] at hm
          rcases List.mem_cons.mp hm with hceq | hmem
          · rw [hceq]
            exact breakPoint_chunk_le (a :: t) maxLength
          · exact ih _ rest hrec c hmem

theorem chunkLoop_isSome (maxLength : Nat) (h : 1 ≤ maxLength) :
    ∀ fuel remaining, remaining.length ≤ fuel →
      (chunkLoop maxLength fuel remaining).isSome = true := by
  intro fuel
  induction fuel with
  | zero =>
    intro remaining hr
    cases remaining with
    | nil => simp [chunkLoop]
    | cons a t => simp at hr
  | succ n ih =>
    intro remaining hr
    cases remaining with
    | nil => simp [chunkLoop]
    | cons a t =>
      by_cases hlen : (a :: t).length ≤ maxLength
      · simp only [chunkLoop]
        rw [if_pos hlen]
        rfl
      · have hbp := breakPointFor_pos (a :: t) maxLength h
        have hdrop : ((a :: t).drop (breakPointFor (a :: t) maxLength)).length
            = (a :: t).length - breakPointFor (a :: t) maxLength := List.length_drop _ _
        have hj := jsTrim_length_le ((a :: t).drop (breakPointFor (a :: t) maxLength))
        have hr' : (a :: t).length ≤ n + 1 := hr
        have hfits : (jsTrim ((a :: t).drop (breakPointFor (a :: t) maxLength))).length ≤ n := by
          omega
        have hsome := ih _ hfits
        simp only [chunkLoop, if_neg hlen]
        cases hx : chunkLoop maxLength n
            (jsTrim ((a :: t).drop (breakPointFor (a :: t) maxLength))) with
        | none =>
          rw [hx] at hsome
          simp at hsome
        | some rest => simp [hx]

/-- Claim C8, counterexample: the claim says every chunk has length at most
`maxLength`, but on the sentence-break path `chunkMessage` keeps the final
period past the limit: `chunkMessage "abcd. xyz" 4` yields the chunk
`"abcd."` of length 5. -/
theorem claim_c8_counterexample :
    ∃ chunks, chunkMessage ['a', 'b', 'c', 'd', '.', ' ', 'x', 'y', 'z'] 4 = some chunks
      ∧ ¬(∀ c ∈ chunks, c.length ≤ 4) :=
  ⟨[['a', 'b', 'c', 'd', '.'], ['x', 'y', 'z']], by decide, by decide⟩

/-- Claim C8, amended: for `maxLength ≥ 1` every chunk produced by
`chunkMessage` has length at most `maxLength + 1` (the sentence-break path
`lastPeriod + 2` can keep the final period one character past the limit;
every other path stays within `maxLength`). -/
theorem claim_c8_amended_bound (text : List Char) (maxLength : Nat)
    (chunks : List (List Char)) (h : 1 ≤ maxLength)
    (hc : chunkMessage text maxLength = some chunks) :
    ∀ c ∈ chunks, c.length ≤ maxLength + 1 := by
  unfold chunkMessage at hc
  by_cases hlen : text.length ≤ maxLength
  · rw [if_pos hlen] at hc
    injection hc with hc'
    intro c hm
    rw [← hc'] at hm
    rw [List.mem_singleton.mp hm]
    omega
  · rw [if_neg hlen] at hc
    exact chunkLoop_chunks_le maxLength text.length text chunks hc

/-- Witness for the amended C8 at the counterexample input. -/
theorem claim_c8_amended_bound_witness :
    1 ≤ 4
    ∧ ∀ c ∈ [['a', 'b', 'c', 'd', '.'], ['x', 'y', 'z']], c.length ≤ 4 + 1 :=
  ⟨by decide,
   claim_c8_amended_bound ['a', 'b', 'c', 'd', '.', ' ', 'x', 'y', 'z'] 4
     [['a', 'b', 'c', 'd', '.'], ['x', 'y', 'z']] (by decide) (by decide)⟩

/-- Claim C10: for `maxLength ≥ 1` every chosen break point is at least 1,
so each loop iteration strictly shortens the remaining input and
`chunkMessage` terminates — concretely, `text.length` iterations of fuel
always suffice. -/
theorem claim_c10_chunk_terminates (text : List Char) (maxLength : Nat) (h : 1 ≤ maxLength) :
    (∀ remaining, 1 ≤ breakPointFor remaining maxLength)
    ∧ (chunkMessage text maxLength).isSome = true := by
  refine ⟨fun remaining => breakPointFor_pos remaining maxLength h, ?_⟩
  unfold chunkMessage
  by_cases hlen : text.length ≤ maxLength
  · rw [if_pos hlen]
    rfl
  · rw [if_neg hlen]
    exact chunkLoop_isSome maxLength h text.length text le_rfl

/-- Witness for C10 at a concrete text and limit that exercise the loop. -/
theorem claim_c10_chunk_terminates_witness :
    1 ≤ 4
    ∧ ((∀ remaining, 1 ≤ breakPointFor remaining 4)
        ∧ (chunkMessage ['h', 'i', '!', ' ', 'y', 'o', 'u'] 4).isSome = true) :=
  ⟨by decide, claim_c10_chunk_terminates ['h', 'i', '!', ' ', 'y', 'o', 'u'] 4 (by decide)⟩

end OpencodeBridge
